import Mathlib

/-!
Shallow embedding of the gh_archive crawler (src/crawler/crawler.py).

The embedding models one ingestion Unit `(date, hour)`.  The MongoDB
side effects of `Crawler.__insert_hourly_gh_data_into_mongodb` and its
helpers are made explicit as a state record `St`:

* `St.primary`  — the contents of the date collection `db[date]` for the
  Unit being ingested (pairs of a store-assigned `_id` and the record,
  the raw line standing in for the parsed JSON value);
* `St.status`   — the `db['status']` Ledger collection (`_id`, unit key);
* `St.gfsIndex` — the `db['gridfs']` fallback index collection
  (`_id`, `file_id`, `date`, `hour`);
* `St.blobs`    — the GridFS blob store (`file_id`, raw line bytes);
* `St.cache`    — the local cache file for the Unit (its decompressed
  content as a parsed stream, `none` when the file does not exist);
* `St.nextId`   — the store's id counter (ids are assigned increasingly).

Behaviour of the external world that the Python code observes per call
(per-line parse/insert results, fetch transport results, write
acknowledgements) is supplied as oracle data: each stream line carries a
`LineKind` saying how `json.loads`/`insert_one` behave on it, and `Env`
carries the fetch behaviour, the Ledger-commit acknowledgement and the
acknowledgement of each rollback `delete_one` call.  A write whose
acknowledgement the oracle reports as `false` is modelled as not applied
to the state (the simulated-store view used by the spec's testable
properties).
-/

/-- How `json.loads` and `col.insert_one` behave on one raw line of the
stream (src/crawler/crawler.py lines 150-177): `okL` = parses and the
insert is acknowledged; `notAck` = parses but `result.acknowledged` is
false; `badJson` = `JSONDecodeError`; `tooLarge` = `DocumentTooLarge`;
`writeErr` = `WriteError`; `otherErr` = any other exception caught by the
final `except Exception` clause. -/
inductive LineKind
  | okL
  | notAck
  | badJson
  | tooLarge
  | writeErr
  | otherErr
  deriving DecidableEq

/-- One raw line of the decompressed stream together with the oracle's
behaviour for it: `fbPutOk` = whether `gridfs.GridFS.put` succeeds if the
line is routed to the fallback path, `fbIndexAck` = whether the fallback
index `insert_one` is acknowledged (line 125 asserts it). -/
structure LineSpec where
  raw : String
  kind : LineKind
  fbPutOk : Bool
  fbIndexAck : Bool
  deriving DecidableEq

/-- Decompressed content of one cached `.json.gz` file: the raw lines it
yields, and whether the compressed stream ends prematurely (gzip raises
`EOFError` after the last complete line) instead of ending cleanly. -/
structure GzStream where
  lines : List LineSpec
  truncated : Bool
  deriving DecidableEq

/-- Exceptions that can escape the ingestion routine uncaught:
`gfsPutErr` = an error raised by `gridfs.GridFS.put` inside an except
handler; `assertFail` = `AssertionError` from `assert result.acknowledged`
(lines 125 and 190). -/
inductive Exc
  | gfsPutErr
  | assertFail
  deriving DecidableEq

/-- Result of `Crawler.__insert_hourly_gh_data_into_mongodb`: returned
`True` (`passU`), returned `False` (`failU`), or an exception escaped
uncaught (`raised`). -/
inductive Outcome
  | passU
  | failU
  | raised (e : Exc)
  deriving DecidableEq

/-- The collection the local variable `col` refers to during rollback:
`db[date]` (line 141) or `db['status']` (rebound at line 180). -/
inductive ColRef
  | dateCol
  | statusCol
  deriving DecidableEq

/-- The observable store and filesystem state for one Unit. -/
structure St where
  primary : List (Nat × String)
  status : List (Nat × String)
  gfsIndex : List (Nat × Nat × String × Nat)
  blobs : List (Nat × String)
  cache : Option GzStream
  nextId : Nat
  deriving DecidableEq

/-- Behaviour of one call to `Crawler.__download_hourly_gh_data_from_server`:
the transport succeeds and the whole body is written, or it fails
(`HTTPError`/`URLError`) before the local file is created, or it fails
after a partial write. -/
inductive FetchBehavior
  | success
  | errBeforeLocalWrite
  | errMidLocalWrite
  deriving DecidableEq

/-- Oracle data for one ingestion call: the fetch transport behaviour,
the body the remote would serve on success, the acknowledgement of the
Ledger-commit `insert_one` (line 181), and the acknowledgement of the
i-th rollback `delete_one` call (line 189). -/
structure Env where
  fetchB : FetchBehavior
  remoteBody : GzStream
  commitAck : Bool
  deleteAck : Nat → Bool

/-- Semantics of `col.delete_one({"_id": id})`: remove the first document
of the collection whose `_id` matches, if any. -/
def eraseFirstById {α : Type} : List (Nat × α) → Nat → List (Nat × α)
  | [], _ => []
  | p :: rest, i => if p.1 = i then rest else p :: eraseFirstById rest i

/-- The Ledger key `f'{date}-{hour}'` used by the status collection
(lines 68 and 181). -/
def unitKey (date : String) (hour : Nat) : String :=
  date ++ "-" ++ toString hour

/-- Model of `Crawler.__is_hourly_gh_data_exists_in_mongodb` (lines
66-69): `find_one({'datetime': key})` is not `None`. -/
def isHourlyGhDataExistsInMongodb (date : String) (hour : Nat) (st : St) : Bool :=
  st.status.any (fun p => p.2 == unitKey date hour)

/-- Model of `Crawler.__is_hourly_gh_data_exists_in_localfs` (lines
71-74): the Unit's local cache file exists. -/
def isHourlyGhDataExistsInLocalfs (st : St) : Bool :=
  st.cache.isSome

/-- Model of `Crawler.__download_hourly_gh_data_from_server` (lines
76-107).  On success the full response body is streamed to the cache
path and `True` is returned.  On `HTTPError`/`URLError` the error is
logged and `False` is returned; the `finally` clause removes the cache
path if it exists and the download did not succeed, so after any failed
download no cache file remains (whether the failure hit before the local
file was opened or mid-write). -/
def downloadHourlyGhData (b : FetchBehavior) (remoteBody : GzStream) (st : St) :
    St × Bool :=
  match b with
  | .success => ({ st with cache := some remoteBody }, true)
  | .errBeforeLocalWrite => ({ st with cache := none }, false)
  | .errMidLocalWrite => ({ st with cache := none }, false)

/-- Model of `Crawler.__get_hourly_gh_data_in_gzip_stream` (lines
109-117): open the cached file if it exists, otherwise download and open
the newly written file only on success; `None` otherwise. -/
def getHourlyGhDataStream (b : FetchBehavior) (remoteBody : GzStream) (st : St) :
    St × Option GzStream :=
  if isHourlyGhDataExistsInLocalfs st then
    (st, st.cache)
  else
    let res := downloadHourlyGhData b remoteBody st
    if res.2 then (res.1, res.1.cache) else (res.1, none)

/-- Model of `Crawler.__insert_event_by_gridfs` (lines 119-126): put the
raw line into GridFS (this may itself raise), then insert the index row
`{'file_id': file_id, 'date': date, 'hour': hour}` into `db['gridfs']`
and assert the insert is acknowledged; an unacknowledged index insert
raises `AssertionError`.  Returns the blob's `file_id` on success,
carrying the state reached at the raise point on failure. -/
def insertEventByGridfs (date : String) (hour : Nat) (l : LineSpec) (st : St) :
    Except (Exc × St) (Nat × St) :=
  if l.fbPutOk then
    let fileId := st.nextId
    let st1 : St :=
      { st with blobs := st.blobs ++ [(fileId, l.raw)], nextId := st.nextId + 1 }
    if l.fbIndexAck then
      let st2 : St :=
        { st1 with
            gfsIndex := st1.gfsIndex ++ [(st1.nextId, fileId, date, hour)],
            nextId := st1.nextId + 1 }
      .ok (fileId, st2)
    else
      .error (.assertFail, st1)
  else
    .error (.gfsPutErr, st)

/-- Model of `Crawler.__delete_event_by_gridfs` (lines 128-130): delete
the blob from GridFS.  Note the index row in `db['gridfs']` is not
touched. -/
def deleteEventByGridfs (fileId : Nat) (st : St) : St :=
  { st with blobs := eraseFirstById st.blobs fileId }

/-- Result of the draining loop (lines 145-177): either the loop exits
via `break` or end of stream (`done`, with the recorded `inserted_ids`,
`inserted_file_ids` and the `is_insertion_complete` flag), or an
exception escaped the loop uncaught (`raised`). -/
inductive DrainOut
  | done (st : St) (insIds insFids : List Nat) (complete : Bool)
  | raised (e : Exc) (st : St)
  deriving DecidableEq

/-- The draining loop of `Crawler.__insert_hourly_gh_data_into_mongodb`
(lines 145-177), one recursive step per `readline`.  A clean end of
stream (`not line`) breaks with the flag still true; a premature end of
the gzip stream raises `EOFError`, whose handler removes the local cache
file and breaks with the flag false.  A parsed, acknowledged insert
records its `inserted_id`; an unacknowledged insert or any unclassified
exception breaks with the flag false; `JSONDecodeError`,
`DocumentTooLarge` and `WriteError` route the raw line to
`insertEventByGridfs` and continue (an exception raised inside those
handlers is not caught by the sibling handlers and escapes the loop). -/
def drain (date : String) (hour : Nat) (trunc : Bool) :
    List LineSpec → St → List Nat → List Nat → DrainOut
  | [], st, insIds, insFids =>
    if trunc then
      .done { st with cache := none } insIds insFids false
    else
      .done st insIds insFids true
  | l :: rest, st, insIds, insFids =>
    match l.kind with
    | .okL =>
      let st1 : St :=
        { st with
            primary := st.primary ++ [(st.nextId, l.raw)],
            nextId := st.nextId + 1 }
      drain date hour trunc rest st1 (insIds ++ [st.nextId]) insFids
    | .notAck => .done st insIds insFids false
    | .otherErr => .done st insIds insFids false
    | .badJson =>
      match insertEventByGridfs date hour l st with
      | .error (e, st1) => .raised e st1
      | .ok (fileId, st1) => drain date hour trunc rest st1 insIds (insFids ++ [fileId])
    | .tooLarge =>
      match insertEventByGridfs date hour l st with
      | .error (e, st1) => .raised e st1
      | .ok (fileId, st1) => drain date hour trunc rest st1 insIds (insFids ++ [fileId])
    | .writeErr =>
      match insertEventByGridfs date hour l st with
      | .error (e, st1) => .raised e st1
      | .ok (fileId, st1) => drain date hour trunc rest st1 insIds (insFids ++ [fileId])

/-- One rollback `col.delete_one({"_id": id})` (line 189), dispatched on
what the variable `col` currently refers to. -/
def colDelete (c : ColRef) (id : Nat) (st : St) : St :=
  match c with
  | .dateCol => { st with primary := eraseFirstById st.primary id }
  | .statusCol => { st with status := eraseFirstById st.status id }

/-- The first rollback loop (lines 187-190): delete each recorded
`inserted_id` from `col` in order, asserting each deletion acknowledged;
an unacknowledged deletion raises `AssertionError` at once, with the
remaining deletions not attempted.  `i` numbers the delete calls for the
acknowledgement oracle. -/
def rollbackPrimary (c : ColRef) (ackF : Nat → Bool) :
    List Nat → Nat → St → Except (Exc × St) St
  | [], _, st => .ok st
  | id :: rest, i, st =>
    if ackF i then
      rollbackPrimary c ackF rest (i + 1) (colDelete c id st)
    else
      .error (.assertFail, st)

/-- The second rollback loop (lines 191-193): delete each recorded
fallback blob via `__delete_event_by_gridfs`, with no acknowledgement
check. -/
def rollbackBlobs : List Nat → St → St
  | [], st => st
  | fileId :: rest, st => rollbackBlobs rest (deleteEventByGridfs fileId st)

/-- The `if not is_insertion_complete` tail of the routine (lines
186-194): run both rollback loops and return `False`; an
`AssertionError` from the first loop escapes uncaught. -/
def finishRollback (c : ColRef) (ackF : Nat → Bool) (insIds insFids : List Nat)
    (st : St) : St × Outcome :=
  match rollbackPrimary c ackF insIds 0 st with
  | .error (e, st1) => (st1, .raised e)
  | .ok st1 => (rollbackBlobs insFids st1, .failU)

/-- Model of `Crawler.__insert_hourly_gh_data_into_mongodb` (lines
132-195).  Skip check against the status collection; sourcing of the
gzip stream; draining; on a complete drain the Ledger commit into
`db['status']` (note `col` is rebound to the status collection here, so
a failed commit rolls `inserted_ids` back against `db['status']`, not
`db[date]`); on an incomplete drain the rollback against `db[date]`. -/
def insertHourlyGhDataIntoMongodb (date : String) (hour : Nat) (env : Env)
    (st : St) : St × Outcome :=
  if isHourlyGhDataExistsInMongodb date hour st then
    (st, .passU)
  else
    match getHourlyGhDataStream env.fetchB env.remoteBody st with
    | (st1, none) => (st1, .failU)
    | (st1, some s) =>
      match drain date hour s.truncated s.lines st1 [] [] with
      | .raised e st2 => (st2, .raised e)
      | .done st2 insIds insFids true =>
        if env.commitAck then
          ({ st2 with
              status := st2.status ++ [(st2.nextId, unitKey date hour)],
              nextId := st2.nextId + 1 }, .passU)
        else
          finishRollback .statusCol env.deleteAck insIds insFids st2
      | .done st2 insIds insFids false =>
        finishRollback .dateCol env.deleteAck insIds insFids st2

/-- A line the draining loop survives without aborting or raising: it
either inserts into the primary collection acknowledged, or routes to a
fallback path that fully succeeds. -/
def benignLine (l : LineSpec) : Bool :=
  match l.kind with
  | .okL => true
  | .badJson => l.fbPutOk && l.fbIndexAck
  | .tooLarge => l.fbPutOk && l.fbIndexAck
  | .writeErr => l.fbPutOk && l.fbIndexAck
  | .notAck => false
  | .otherErr => false

/-- The line kinds the code routes to the Fallback Store
(`JSONDecodeError`, `DocumentTooLarge`, `WriteError`). -/
def isFallbackKind (k : LineKind) : Bool :=
  match k with
  | .badJson => true
  | .tooLarge => true
  | .writeErr => true
  | _ => false

/-- All store ids present in the state are below the id counter, so ids
assigned during an attempt are fresh. -/
def idBound (st : St) : Prop :=
  (∀ p ∈ st.primary, p.1 < st.nextId) ∧ (∀ p ∈ st.blobs, p.1 < st.nextId)

/-- Python dict assignment `d[k] = v`: replace the value of the first
entry with key `k`, or append a new entry. -/
def dictInsert {α : Type} : List (String × α) → String → α → List (String × α)
  | [], k, v => [(k, v)]
  | p :: rest, k, v => if p.1 = k then (k, v) :: rest else p :: dictInsert rest k v

/-- Python dict lookup `d[k]` as an option: the value of the first entry
with key `k`. -/
def dictLookup {α : Type} (d : List (String × α)) (k : String) : Option α :=
  match d.find? (fun p => p.1 == k) with
  | some p => some p.2
  | none => none

/-- Model of `load_token` (src/crawler/crawler.py lines 15-37): start
from an empty dict, copy in the JSON file's entries when the file
exists, then copy in the keyword arguments (which therefore replace file
values on shared keys); `kwargs` is never `None`, so the guard is just a
non-emptiness check. -/
def load_token {α : Type} (fileExists : Bool) (fileTok kwargs : List (String × α)) :
    List (String × α) :=
  let token : List (String × α) := []
  let token :=
    if fileExists then
      fileTok.foldl (fun t p => dictInsert t p.1 p.2) token
    else
      token
  if 0 < kwargs.length then
    kwargs.foldl (fun t p => dictInsert t p.1 p.2) token
  else
    token

/-- Deleting by an id that heads the tail of an append, when the id does
not occur among the keys of the front part, removes exactly that entry. -/
theorem eraseFirstById_append {α : Type} (old rest : List (Nat × α)) (id : Nat) (a : α)
    (h : id ∉ old.map Prod.fst) :
    eraseFirstById (old ++ (id, a) :: rest) id = old ++ rest := by
  induction old with
  | nil => simp [eraseFirstById]
  | cons q old' ih =>
    simp only [List.map_cons, List.mem_cons] at h
    push_neg at h
    simp only [List.cons_append, eraseFirstById, List.append_eq]
    rw [if_neg (fun hq => h.1 hq.symm), ih h.2]

/-- A rollback of the primary collection with every deletion
acknowledged removes exactly the freshly appended entries. -/
theorem rollbackPrimary_restore (ackF : Nat → Bool) (hack : ∀ j, ackF j = true) :
    ∀ (newPrim old : List (Nat × String)) (st : St) (i : Nat),
      st.primary = old ++ newPrim →
      (∀ p ∈ newPrim, p.1 ∉ old.map Prod.fst) →
      rollbackPrimary .dateCol ackF (newPrim.map Prod.fst) i st
        = .ok { st with primary := old } := by
  intro newPrim
  induction newPrim with
  | nil =>
    intro old st i hp _
    simp only [List.append_nil] at hp
    subst hp
    rfl
  | cons q rest ih =>
    intro old st i hp hdisj
    obtain ⟨id, a⟩ := q
    simp only [List.map_cons, rollbackPrimary, hack i, if_true]
    have herase : eraseFirstById st.primary id = old ++ rest := by
      rw [hp]
      exact eraseFirstById_append old rest id a
        (hdisj (id, a) (List.mem_cons_self _ _))
    have := ih old { st with primary := eraseFirstById st.primary id } (i + 1)
      (by simpa using herase)
      (fun p hp' => hdisj p (List.mem_cons_of_mem _ hp'))
    simpa [colDelete] using this

/-- A rollback of the fallback blobs removes exactly the freshly
appended blobs. -/
theorem rollbackBlobs_restore :
    ∀ (newBlobs old : List (Nat × String)) (st : St),
      st.blobs = old ++ newBlobs →
      (∀ p ∈ newBlobs, p.1 ∉ old.map Prod.fst) →
      rollbackBlobs (newBlobs.map Prod.fst) st = { st with blobs := old } := by
  intro newBlobs
  induction newBlobs with
  | nil =>
    intro old st hb _
    simp only [List.append_nil] at hb
    subst hb
    rfl
  | cons q rest ih =>
    intro old st hb hdisj
    obtain ⟨id, a⟩ := q
    have herase : eraseFirstById st.blobs id = old ++ rest := by
      rw [hb]
      exact eraseFirstById_append old rest id a
        (hdisj (id, a) (List.mem_cons_self _ _))
    have := ih old { st with blobs := eraseFirstById st.blobs id }
      (by simpa using herase)
      (fun p hp' => hdisj p (List.mem_cons_of_mem _ hp'))
    simpa [rollbackBlobs, deleteEventByGridfs] using this

/-- Draining a prefix of benign lines neither aborts nor raises: it
reduces to draining the remaining lines from a state extended by the
freshly inserted primary records, blobs and index rows, all carrying
fresh ids, with the status collection and the cache untouched. -/
theorem drain_pre_spec (date : String) (hour : Nat) (trunc : Bool) :
    ∀ (pre rest : List LineSpec) (st : St) (ins fids : List Nat),
      (∀ l ∈ pre, benignLine l = true) →
      ∃ (st' : St) (newPrim newBlobs : List (Nat × String))
        (newIdx : List (Nat × Nat × String × Nat)),
        drain date hour trunc (pre ++ rest) st ins fids
          = drain date hour trunc rest st' (ins ++ newPrim.map Prod.fst)
              (fids ++ newBlobs.map Prod.fst) ∧
        st'.primary = st.primary ++ newPrim ∧
        st'.blobs = st.blobs ++ newBlobs ∧
        st'.gfsIndex = st.gfsIndex ++ newIdx ∧
        st'.status = st.status ∧
        st'.cache = st.cache ∧
        st.nextId ≤ st'.nextId ∧
        (∀ p ∈ newPrim, st.nextId ≤ p.1) ∧
        (∀ p ∈ newBlobs, st.nextId ≤ p.1) ∧
        newPrim.length = pre.countP (fun l => l.kind == LineKind.okL) ∧
        newPrim.map Prod.snd
          = (pre.filter (fun l => l.kind == LineKind.okL)).map LineSpec.raw ∧
        newBlobs.map Prod.snd
          = (pre.filter (fun l => isFallbackKind l.kind)).map LineSpec.raw := by
  intro pre
  induction pre with
  | nil =>
    intro rest st ins fids _
    exact ⟨st, [], [], [], by simp⟩
  | cons l pre' ih =>
    intro rest st ins fids hb
    have hbl := hb l (List.mem_cons_self _ _)
    have hbt : ∀ x ∈ pre', benignLine x = true :=
      fun x hx => hb x (List.mem_cons_of_mem _ hx)
    obtain ⟨raw, kind, fpo, fia⟩ := l
    cases kind with
    | notAck => simp [benignLine] at hbl
    | otherErr => simp [benignLine] at hbl
    | okL =>
      obtain ⟨st', np, nb, ni, heq, hp, hbo, hg, hs, hc, hn, hip, hib, hlen, hr1, hr2⟩ :=
        ih rest
          { st with primary := st.primary ++ [(st.nextId, raw)],
                    nextId := st.nextId + 1 }
          (ins ++ [st.nextId]) fids hbt
      refine ⟨st', (st.nextId, raw) :: np, nb, ni, ?_, ?_, ?_, ?_, ?_, ?_, ?_, ?_, ?_, ?_, ?_, ?_⟩
      · exact heq.trans (by simp)
      · rw [hp]; simp
      · exact hbo
      · exact hg
      · exact hs
      · exact hc
      · have hn' : st.nextId + 1 ≤ st'.nextId := hn
        omega
      · intro p hp'
        rcases List.mem_cons.mp hp' with h | h
        · subst h; exact le_refl _
        · have h2 : st.nextId + 1 ≤ p.1 := hip p h
          omega
      · intro p hp'
        have h2 : st.nextId + 1 ≤ p.1 := hib p hp'
        omega
      · simp [List.countP_cons, hlen]
      · simp [List.filter_cons, hr1]
      · simp [List.filter_cons, isFallbackKind, hr2]
    | badJson =>
      simp only [benignLine, Bool.and_eq_true] at hbl
      obtain ⟨hf1, hf2⟩ := hbl
      subst hf1
      subst hf2
      obtain ⟨st', np, nb, ni, heq, hp, hbo, hg, hs, hc, hn, hip, hib, hlen, hr1, hr2⟩ :=
        ih rest
          { st with blobs := st.blobs ++ [(st.nextId, raw)],
                    gfsIndex := st.gfsIndex ++ [(st.nextId + 1, st.nextId, date, hour)],
                    nextId := st.nextId + 2 }
          ins (fids ++ [st.nextId]) hbt
      refine ⟨st', np, (st.nextId, raw) :: nb, (st.nextId + 1, st.nextId, date, hour) :: ni,
        ?_, ?_, ?_, ?_, ?_, ?_, ?_, ?_, ?_, ?_, ?_, ?_⟩
      · exact heq.trans (by simp)
      · exact hp
      · rw [hbo]; simp
      · rw [hg]; simp
      · exact hs
      · exact hc
      · have hn' : st.nextId + 2 ≤ st'.nextId := hn
        omega
      · intro p hp'
        have h2 : st.nextId + 2 ≤ p.1 := hip p hp'
        omega
      · intro p hp'
        rcases List.mem_cons.mp hp' with h | h
        · subst h; exact le_refl _
        · have h2 : st.nextId + 2 ≤ p.1 := hib p h
          omega
      · simp [List.countP_cons, hlen]
      · simp [List.filter_cons, hr1]
      · simp [List.filter_cons, isFallbackKind, hr2]
    | tooLarge =>
      simp only [benignLine, Bool.and_eq_true] at hbl
      obtain ⟨hf1, hf2⟩ := hbl
      subst hf1
      subst hf2
      obtain ⟨st', np, nb, ni, heq, hp, hbo, hg, hs, hc, hn, hip, hib, hlen, hr1, hr2⟩ :=
        ih rest
          { st with blobs := st.blobs ++ [(st.nextId, raw)],
                    gfsIndex := st.gfsIndex ++ [(st.nextId + 1, st.nextId, date, hour)],
                    nextId := st.nextId + 2 }
          ins (fids ++ [st.nextId]) hbt
      refine ⟨st', np, (st.nextId, raw) :: nb, (st.nextId + 1, st.nextId, date, hour) :: ni,
        ?_, ?_, ?_, ?_, ?_, ?_, ?_, ?_, ?_, ?_, ?_, ?_⟩
      · exact heq.trans (by simp)
      · exact hp
      · rw [hbo]; simp
      · rw [hg]; simp
      · exact hs
      · exact hc
      · have hn' : st.nextId + 2 ≤ st'.nextId := hn
        omega
      · intro p hp'
        have h2 : st.nextId + 2 ≤ p.1 := hip p hp'
        omega
      · intro p hp'
        rcases List.mem_cons.mp hp' with h | h
        · subst h; exact le_refl _
        · have h2 : st.nextId + 2 ≤ p.1 := hib p h
          omega
      · simp [List.countP_cons, hlen]
      · simp [List.filter_cons, hr1]
      · simp [List.filter_cons, isFallbackKind, hr2]
    | writeErr =>
      simp only [benignLine, Bool.and_eq_true] at hbl
      obtain ⟨hf1, hf2⟩ := hbl
      subst hf1
      subst hf2
      obtain ⟨st', np, nb, ni, heq, hp, hbo, hg, hs, hc, hn, hip, hib, hlen, hr1, hr2⟩ :=
        ih rest
          { st with blobs := st.blobs ++ [(st.nextId, raw)],
                    gfsIndex := st.gfsIndex ++ [(st.nextId + 1, st.nextId, date, hour)],
                    nextId := st.nextId + 2 }
          ins (fids ++ [st.nextId]) hbt
      refine ⟨st', np, (st.nextId, raw) :: nb, (st.nextId + 1, st.nextId, date, hour) :: ni,
        ?_, ?_, ?_, ?_, ?_, ?_, ?_, ?_, ?_, ?_, ?_, ?_⟩
      · exact heq.trans (by simp)
      · exact hp
      · rw [hbo]; simp
      · rw [hg]; simp
      · exact hs
      · exact hc
      · have hn' : st.nextId + 2 ≤ st'.nextId := hn
        omega
      · intro p hp'
        have h2 : st.nextId + 2 ≤ p.1 := hip p hp'
        omega
      · intro p hp'
        rcases List.mem_cons.mp hp' with h | h
        · subst h; exact le_refl _
        · have h2 : st.nextId + 2 ≤ p.1 := hib p h
          omega
      · simp [List.countP_cons, hlen]
      · simp [List.filter_cons, hr1]
      · simp [List.filter_cons, isFallbackKind, hr2]

/-- When the Unit's local cache file exists, sourcing opens it and the
state is untouched. -/
theorem getStream_of_cache (b : FetchBehavior) (body : GzStream) (st : St)
    (s : GzStream) (h : st.cache = some s) :
    getHourlyGhDataStream b body st = (st, some s) := by
  simp [getHourlyGhDataStream, isHourlyGhDataExistsInLocalfs, h]

/-- Fresh ids (at or above a bound) never collide with the ids already
present (below the bound). -/
theorem fresh_disjoint {l newl : List (Nat × String)} {bound : Nat}
    (hb : ∀ p ∈ l, p.1 < bound) (hn : ∀ p ∈ newl, bound ≤ p.1) :
    ∀ p ∈ newl, p.1 ∉ l.map Prod.fst := by
  intro p hp hmem
  obtain ⟨q, hq, hqe⟩ := List.mem_map.mp hmem
  have h1 := hb q hq
  have h2 := hn p hp
  omega

/-- A rollback against the date collection with every deletion
acknowledged deletes exactly the freshly appended primary records and
blobs and reports failure. -/
theorem finishRollback_restore (ackF : Nat → Bool) (hack : ∀ j, ackF j = true)
    (np nb oldP oldB : List (Nat × String)) (st : St)
    (hp : st.primary = oldP ++ np) (hb : st.blobs = oldB ++ nb)
    (hdp : ∀ p ∈ np, p.1 ∉ oldP.map Prod.fst)
    (hdb : ∀ p ∈ nb, p.1 ∉ oldB.map Prod.fst) :
    finishRollback .dateCol ackF (np.map Prod.fst) (nb.map Prod.fst) st
      = ({ st with primary := oldP, blobs := oldB }, .failU) := by
  unfold finishRollback
  rw [rollbackPrimary_restore ackF hack np oldP st 0 hp hdp]
  have h2 := rollbackBlobs_restore nb oldB { st with primary := oldP }
    (by simpa using hb) hdb
  simp [h2]

/-- Claim C5: a Unit whose cached stream ends prematurely (after its
complete lines were all drained benignly) has its local cache file
deleted, every record and blob stored during the attempt rolled back,
and is reported as failed; the same lines with a clean end of stream are
instead committed and reported as passed, so truncation is detected as
distinct from a clean end. -/
theorem claim5_truncation_cleanup (date : String) (hour : Nat) (env : Env) (st : St)
    (lines : List LineSpec)
    (hled : isHourlyGhDataExistsInMongodb date hour st = false)
    (hcache : st.cache = some (GzStream.mk lines true))
    (hben : ∀ l ∈ lines, benignLine l = true)
    (hbound : idBound st)
    (hack : ∀ i, env.deleteAck i = true) :
    ∃ st', insertHourlyGhDataIntoMongodb date hour env st = (st', .failU) ∧
      st'.cache = none ∧
      st'.primary = st.primary ∧
      st'.blobs = st.blobs ∧
      st'.status = st.status ∧
      (env.commitAck = true →
        ∃ st2, insertHourlyGhDataIntoMongodb date hour env
            { st with cache := some (GzStream.mk lines false) } = (st2, .passU)) := by
  obtain ⟨st1, np, nb, ni, heq, hp, hbo, hg, hs, hc, hn, hip, hib, hlen, hr1, hr2⟩ :=
    drain_pre_spec date hour true lines [] st [] [] hben
  have hdr : drain date hour true lines st [] []
      = .done { st1 with cache := none } (np.map Prod.fst) (nb.map Prod.fst) false := by
    simpa [drain] using heq
  have hgs := getStream_of_cache env.fetchB env.remoteBody st _ hcache
  have hfr := finishRollback_restore env.deleteAck hack np nb st.primary st.blobs
    { st1 with cache := none } (by simpa using hp) (by simpa using hbo)
    (fresh_disjoint hbound.1 hip) (fresh_disjoint hbound.2 hib)
  refine ⟨{ st1 with cache := none, primary := st.primary, blobs := st.blobs },
    ?_, rfl, rfl, rfl, by simpa using hs, ?_⟩
  · rw [insertHourlyGhDataIntoMongodb, hled]
    simp only [Bool.false_eq_true, if_false, hgs, hdr, hfr]
  · intro hcommit
    obtain ⟨st1', np', nb', ni', heq', hp', hbo', hg', hs', hc', hn', hip', hib', hlen', hr1', hr2'⟩ :=
      drain_pre_spec date hour false lines []
        { st with cache := some (GzStream.mk lines false) } [] [] hben
    have hdr' : drain date hour false lines
        { st with cache := some (GzStream.mk lines false) } [] []
        = .done st1' (np'.map Prod.fst) (nb'.map Prod.fst) true := by
      simpa [drain] using heq'
    have hled2 : isHourlyGhDataExistsInMongodb date hour
        { st with cache := some (GzStream.mk lines false) } = false := by
      simpa [isHourlyGhDataExistsInMongodb] using hled
    have hgs2 : getHourlyGhDataStream env.fetchB env.remoteBody
        { st with cache := some (GzStream.mk lines false) }
        = ({ st with cache := some (GzStream.mk lines false) },
            some (GzStream.mk lines false)) :=
      getStream_of_cache _ _ _ _ rfl
    refine ⟨{ st1' with
        status := st1'.status ++ [(st1'.nextId, unitKey date hour)],
        nextId := st1'.nextId + 1 }, ?_⟩
    rw [insertHourlyGhDataIntoMongodb, hled2]
    simp only [Bool.false_eq_true, if_false, hgs2, hdr', hcommit, if_true]


/-- A line whose parsed insert is unacknowledged, or whose insert raises
an unclassified exception, breaks the draining loop at once with the
completion flag false and the state untouched. -/
theorem drain_fatal_step (date : String) (hour : Nat) (trunc : Bool) (l : LineSpec)
    (rest : List LineSpec) (st : St) (ins fids : List Nat)
    (hl : l.kind = .notAck ∨ l.kind = .otherErr) :
    drain date hour trunc (l :: rest) st ins fids = .done st ins fids false := by
  obtain ⟨raw, kind, fpo, fia⟩ := l
  rcases hl with h | h
  · have h' : kind = .notAck := h
    subst h'
    rfl
  · have h' : kind = .otherErr := h
    subst h'
    rfl

/-- When a fallback-routed line's fallback path itself fails, the
draining loop raises at once: a failed blob put raises with the state
untouched, an unacknowledged index insert raises `AssertionError` with
only the blob added. -/
theorem drain_fallback_fail_step (date : String) (hour : Nat) (trunc : Bool)
    (l : LineSpec) (rest : List LineSpec) (st : St) (ins fids : List Nat)
    (hk : isFallbackKind l.kind = true) :
    (l.fbPutOk = false →
      drain date hour trunc (l :: rest) st ins fids = .raised .gfsPutErr st) ∧
    (l.fbPutOk = true → l.fbIndexAck = false →
      drain date hour trunc (l :: rest) st ins fids
        = .raised .assertFail
            { st with blobs := st.blobs ++ [(st.nextId, l.raw)],
                      nextId := st.nextId + 1 }) := by
  obtain ⟨raw, kind, fpo, fia⟩ := l
  constructor
  · intro h1
    have h1' : fpo = false := h1
    subst h1'
    cases kind with
    | badJson => rfl
    | tooLarge => rfl
    | writeErr => rfl
    | okL => simp [isFallbackKind] at hk
    | notAck => simp [isFallbackKind] at hk
    | otherErr => simp [isFallbackKind] at hk
  · intro h1 h2
    have h1' : fpo = true := h1
    subst h1'
    have h2' : fia = false := h2
    subst h2'
    cases kind with
    | badJson => rfl
    | tooLarge => rfl
    | writeErr => rfl
    | okL => simp [isFallbackKind] at hk
    | notAck => simp [isFallbackKind] at hk
    | otherErr => simp [isFallbackKind] at hk

/-- Claim C2: a Unit whose key is already in the Ledger is skipped: no
store, Ledger or cache mutation at all, and the Unit reports success. -/
theorem claim2_ledger_skip (date : String) (hour : Nat) (env : Env) (st : St)
    (h : isHourlyGhDataExistsInMongodb date hour st = true) :
    insertHourlyGhDataIntoMongodb date hour env st = (st, .passU) := by
  simp [insertHourlyGhDataIntoMongodb, h]

/-- Witness for C2 at a concrete Unit already present in the Ledger. -/
theorem claim2_ledger_skip_witness :
    insertHourlyGhDataIntoMongodb "2015-01-01" 0
      ⟨.success, ⟨[], false⟩, true, fun _ => true⟩
      ⟨[], [(0, "2015-01-01-0")], [], [], none, 1⟩
      = (⟨[], [(0, "2015-01-01-0")], [], [], none, 1⟩, .passU) :=
  claim2_ledger_skip "2015-01-01" 0 _ _ (by decide)

/-- Claim C7: the fetch returns false exactly on transport failures, any
failed fetch leaves no local cache file an exists check would accept,
and a true return means the full response body is on disk. -/
theorem claim7_fetch_failure_clean (b : FetchBehavior) (body : GzStream) (st : St) :
    ((downloadHourlyGhData b body st).2 = false ↔ b ≠ .success) ∧
    ((downloadHourlyGhData b body st).2 = false →
      isHourlyGhDataExistsInLocalfs (downloadHourlyGhData b body st).1 = false) ∧
    ((downloadHourlyGhData b body st).2 = true →
      (downloadHourlyGhData b body st).1.cache = some body) := by
  cases b <;> simp [downloadHourlyGhData, isHourlyGhDataExistsInLocalfs]

/-- Witness for C7 at a concrete failing fetch. -/
theorem claim7_fetch_failure_clean_witness :
    isHourlyGhDataExistsInLocalfs
      (downloadHourlyGhData .errMidLocalWrite ⟨[], false⟩
        ⟨[], [], [], [], none, 0⟩).1 = false :=
  (claim7_fetch_failure_clean .errMidLocalWrite ⟨[], false⟩
    ⟨[], [], [], [], none, 0⟩).2.1 (by decide)

/-- Claim C8: a Unit with no local cache file and a failed fetch stops
with a failure report and a completely unchanged state: no Ledger write
and no Primary or Fallback mutation. -/
theorem claim8_absent_source (date : String) (hour : Nat) (env : Env) (st : St)
    (hled : isHourlyGhDataExistsInMongodb date hour st = false)
    (hcache : st.cache = none)
    (hfetch : env.fetchB ≠ .success) :
    insertHourlyGhDataIntoMongodb date hour env st = (st, .failU) := by
  have hst : ({ st with cache := none } : St) = st := by
    obtain ⟨p, s, g, bl, c, n⟩ := st
    have hc : c = none := hcache
    subst hc
    rfl
  have hdl : downloadHourlyGhData env.fetchB env.remoteBody st
      = ({ st with cache := none }, false) := by
    cases hb : env.fetchB with
    | success => exact absurd hb hfetch
    | errBeforeLocalWrite => rfl
    | errMidLocalWrite => rfl
  have hgs : getHourlyGhDataStream env.fetchB env.remoteBody st = (st, none) := by
    rw [getHourlyGhDataStream]
    simp [isHourlyGhDataExistsInLocalfs, hcache, hdl, hst]
  rw [insertHourlyGhDataIntoMongodb, hled]
  simp only [Bool.false_eq_true, if_false, hgs]

/-- Witness for C8 at a concrete Unit with no cache and a failed
transport. -/
theorem claim8_absent_source_witness :
    insertHourlyGhDataIntoMongodb "2015-01-01" 0
      ⟨.errBeforeLocalWrite, ⟨[], false⟩, true, fun _ => true⟩
      ⟨[], [], [], [], none, 0⟩
      = (⟨[], [], [], [], none, 0⟩, .failU) :=
  claim8_absent_source "2015-01-01" 0 _ _ (by decide) rfl (by decide)

/-- Claim C6: a line that fails JSON parsing, or that the Primary Store
rejects as too large or with a write error, is stored byte-identical as
a fallback blob with an index row carrying the Unit's date and hour, the
primary collection is untouched by it, and draining continues with the
next line. -/
theorem claim6_fallback_routing (date : String) (hour : Nat) (trunc : Bool)
    (l : LineSpec) (rest : List LineSpec) (st : St) (ins fids : List Nat)
    (hk : isFallbackKind l.kind = true)
    (h1 : l.fbPutOk = true) (h2 : l.fbIndexAck = true) :
    ∃ (st2 : St) (fid docId : Nat),
      drain date hour trunc (l :: rest) st ins fids
        = drain date hour trunc rest st2 ins (fids ++ [fid]) ∧
      st2.blobs = st.blobs ++ [(fid, l.raw)] ∧
      st2.gfsIndex = st.gfsIndex ++ [(docId, fid, date, hour)] ∧
      st2.primary = st.primary ∧
      st2.status = st.status ∧
      st2.cache = st.cache := by
  obtain ⟨raw, kind, fpo, fia⟩ := l
  have h1' : fpo = true := h1
  subst h1'
  have h2' : fia = true := h2
  subst h2'
  refine ⟨{ st with
      blobs := st.blobs ++ [(st.nextId, raw)],
      gfsIndex := st.gfsIndex ++ [(st.nextId + 1, st.nextId, date, hour)],
      nextId := st.nextId + 2 }, st.nextId, st.nextId + 1,
    ?_, rfl, rfl, rfl, rfl, rfl⟩
  cases kind with
  | badJson => rfl
  | tooLarge => rfl
  | writeErr => rfl
  | okL => simp [isFallbackKind] at hk
  | notAck => simp [isFallbackKind] at hk
  | otherErr => simp [isFallbackKind] at hk

/-- Witness for C6 at a concrete invalid-JSON line. -/
theorem claim6_fallback_routing_witness :
    ∃ (st2 : St) (fid docId : Nat),
      drain "2015-01-01" 0 false [⟨"notjson", .badJson, true, true⟩]
          ⟨[], [], [], [], none, 0⟩ [] []
        = drain "2015-01-01" 0 false [] st2 [] ([] ++ [fid]) ∧
      st2.blobs = [] ++ [(fid, "notjson")] ∧
      st2.gfsIndex = [] ++ [(docId, fid, "2015-01-01", 0)] ∧
      st2.primary = [] ∧
      st2.status = [] ∧
      st2.cache = none :=
  claim6_fallback_routing "2015-01-01" 0 false ⟨"notjson", .badJson, true, true⟩
    [] ⟨[], [], [], [], none, 0⟩ [] [] (by decide) rfl rfl

/-- Claim C1 counterexample: a fallback-routed line followed by an
unacknowledged Primary insert.  The call returns failure and the blobs
and primary records of the attempt are removed, but the fallback index
row created for the first line survives in the fallback index
collection, so the Fallback Store is not free of entries from the
attempt. -/
theorem claim1_counterexample :
    (insertHourlyGhDataIntoMongodb "2015-01-01" 0
      ⟨.success, ⟨[], false⟩, true, fun _ => true⟩
      ⟨[], [], [], [],
        some ⟨[⟨"x", .badJson, true, true⟩, ⟨"y", .notAck, true, true⟩], false⟩,
        0⟩).2 = .failU ∧
    ((insertHourlyGhDataIntoMongodb "2015-01-01" 0
      ⟨.success, ⟨[], false⟩, true, fun _ => true⟩
      ⟨[], [], [], [],
        some ⟨[⟨"x", .badJson, true, true⟩, ⟨"y", .notAck, true, true⟩], false⟩,
        0⟩).1).gfsIndex = [(1, 0, "2015-01-01", 0)] ∧
    ((insertHourlyGhDataIntoMongodb "2015-01-01" 0
      ⟨.success, ⟨[], false⟩, true, fun _ => true⟩
      ⟨[], [], [], [],
        some ⟨[⟨"x", .badJson, true, true⟩, ⟨"y", .notAck, true, true⟩], false⟩,
        0⟩).1).blobs = [] ∧
    ((insertHourlyGhDataIntoMongodb "2015-01-01" 0
      ⟨.success, ⟨[], false⟩, true, fun _ => true⟩
      ⟨[], [], [], [],
        some ⟨[⟨"x", .badJson, true, true⟩, ⟨"y", .notAck, true, true⟩], false⟩,
        0⟩).1).primary = [] := by
  decide

/-- Claim C3 counterexample: two acknowledged inserts followed by an
unacknowledged one trigger rollback; the first rollback deletion is not
acknowledged, so `assert result.acknowledged` raises `AssertionError`:
the exception escapes (the Unit is not reported as failed) and the
second primary record is never deleted. -/
theorem claim3_counterexample :
    (insertHourlyGhDataIntoMongodb "2015-01-01" 0
      ⟨.success, ⟨[], false⟩, true, fun _ => false⟩
      ⟨[], [], [], [],
        some ⟨[⟨"a", .okL, true, true⟩, ⟨"b", .okL, true, true⟩,
               ⟨"c", .notAck, true, true⟩], false⟩,
        0⟩).2 = .raised .assertFail ∧
    ((insertHourlyGhDataIntoMongodb "2015-01-01" 0
      ⟨.success, ⟨[], false⟩, true, fun _ => false⟩
      ⟨[], [], [], [],
        some ⟨[⟨"a", .okL, true, true⟩, ⟨"b", .okL, true, true⟩,
               ⟨"c", .notAck, true, true⟩], false⟩,
        0⟩).1).primary = [(0, "a"), (1, "b")] := by
  decide

/-- Claim C4, the code evaluated at the failing input: one acknowledged
line drains completely, the Ledger commit is unacknowledged, rollback
runs — but because the variable `col` was rebound to the status
collection, the delete targets `db['status']` and the primary record
survives while the call still returns failure. -/
theorem claim4_code_evaluation :
    (insertHourlyGhDataIntoMongodb "2015-01-01" 0
      ⟨.success, ⟨[], false⟩, false, fun _ => true⟩
      ⟨[], [], [], [], some ⟨[⟨"e1", .okL, true, true⟩], false⟩, 0⟩).2 = .failU ∧
    ((insertHourlyGhDataIntoMongodb "2015-01-01" 0
      ⟨.success, ⟨[], false⟩, false, fun _ => true⟩
      ⟨[], [], [], [], some ⟨[⟨"e1", .okL, true, true⟩], false⟩, 0⟩).1).primary
      = [(0, "e1")] ∧
    ((insertHourlyGhDataIntoMongodb "2015-01-01" 0
      ⟨.success, ⟨[], false⟩, false, fun _ => true⟩
      ⟨[], [], [], [], some ⟨[⟨"e1", .okL, true, true⟩], false⟩, 0⟩).1).status = [] := by
  decide

/-- Claim C1 (amended): a Unit-fatal insert failure at some line (an
unacknowledged insert or an unclassified store error, after a benign
prefix) makes the call return failure with every primary record and
every fallback blob of the attempt deleted and no Ledger entry — but the
fallback index rows created by the attempt are not deleted and remain in
the index collection. -/
theorem claim1_fatal_rollback (date : String) (hour : Nat) (env : Env) (st : St)
    (pre rest : List LineSpec) (l : LineSpec) (tr : Bool)
    (hled : isHourlyGhDataExistsInMongodb date hour st = false)
    (hcache : st.cache = some (GzStream.mk (pre ++ l :: rest) tr))
    (hpre : ∀ x ∈ pre, benignLine x = true)
    (hl : l.kind = .notAck ∨ l.kind = .otherErr)
    (hbound : idBound st)
    (hack : ∀ i, env.deleteAck i = true) :
    ∃ (st' : St) (newIdx : List (Nat × Nat × String × Nat)),
      insertHourlyGhDataIntoMongodb date hour env st = (st', .failU) ∧
      st'.primary = st.primary ∧
      st'.blobs = st.blobs ∧
      st'.status = st.status ∧
      st'.gfsIndex = st.gfsIndex ++ newIdx ∧
      isHourlyGhDataExistsInMongodb date hour st' = false := by
  obtain ⟨st1, np, nb, ni, heq, hp, hbo, hg, hs, hc, hn, hip, hib, hlen, hr1, hr2⟩ :=
    drain_pre_spec date hour tr pre (l :: rest) st [] [] hpre
  have hdr : drain date hour tr (pre ++ l :: rest) st [] []
      = .done st1 (np.map Prod.fst) (nb.map Prod.fst) false := by
    rw [heq, drain_fatal_step date hour tr l rest st1 _ _ hl]
    simp
  have hgs := getStream_of_cache env.fetchB env.remoteBody st _ hcache
  have hfr := finishRollback_restore env.deleteAck hack np nb st.primary st.blobs
    st1 hp hbo (fresh_disjoint hbound.1 hip) (fresh_disjoint hbound.2 hib)
  refine ⟨{ st1 with primary := st.primary, blobs := st.blobs }, ni,
    ?_, rfl, rfl, hs, hg, ?_⟩
  · rw [insertHourlyGhDataIntoMongodb, hled]
    simp only [Bool.false_eq_true, if_false, hgs, hdr, hfr]
  · simpa [isHourlyGhDataExistsInMongodb, hs] using hled

/-- Witness for the amended C1 at the counterexample's input. -/
theorem claim1_fatal_rollback_witness :
    ∃ (st' : St) (newIdx : List (Nat × Nat × String × Nat)),
      insertHourlyGhDataIntoMongodb "2015-01-01" 0
        ⟨.success, ⟨[], false⟩, true, fun _ => true⟩
        ⟨[], [], [], [],
          some ⟨[⟨"x", .badJson, true, true⟩, ⟨"y", .notAck, true, true⟩], false⟩,
          0⟩ = (st', .failU) ∧
      st'.primary = [] ∧
      st'.blobs = [] ∧
      st'.status = [] ∧
      st'.gfsIndex = [] ++ newIdx ∧
      isHourlyGhDataExistsInMongodb "2015-01-01" 0 st' = false :=
  claim1_fatal_rollback "2015-01-01" 0
    ⟨.success, ⟨[], false⟩, true, fun _ => true⟩
    ⟨[], [], [], [],
      some ⟨[⟨"x", .badJson, true, true⟩, ⟨"y", .notAck, true, true⟩], false⟩, 0⟩
    [⟨"x", .badJson, true, true⟩] [] ⟨"y", .notAck, true, true⟩ false
    (by decide) rfl (by decide) (Or.inl rfl) ⟨by simp, by simp⟩ (fun i => rfl)

/-- Claim C3 (amended): during rollback each recorded primary deletion
is attempted in order and asserted acknowledged; an unacknowledged
deletion raises `AssertionError` which escapes the routine uncaught, so
the remaining deletions are skipped and the Unit is not reported at all
(fallback blob deletions carry no acknowledgement check; only when every
primary deletion is acknowledged is the Unit reported as failed). -/
theorem claim3_rollback_assert_escapes (date : String) (hour : Nat) (env : Env)
    (st : St) (pre rest : List LineSpec) (l : LineSpec) (tr : Bool)
    (hled : isHourlyGhDataExistsInMongodb date hour st = false)
    (hcache : st.cache = some (GzStream.mk (pre ++ l :: rest) tr))
    (hpre : ∀ x ∈ pre, benignLine x = true)
    (hl : l.kind = .notAck ∨ l.kind = .otherErr)
    (hok : ∃ x ∈ pre, x.kind = .okL)
    (hack0 : env.deleteAck 0 = false) :
    ∃ st', insertHourlyGhDataIntoMongodb date hour env st
      = (st', .raised .assertFail) := by
  obtain ⟨st1, np, nb, ni, heq, hp, hbo, hg, hs, hc, hn, hip, hib, hlen, hr1, hr2⟩ :=
    drain_pre_spec date hour tr pre (l :: rest) st [] [] hpre
  have hdr : drain date hour tr (pre ++ l :: rest) st [] []
      = .done st1 (np.map Prod.fst) (nb.map Prod.fst) false := by
    rw [heq, drain_fatal_step date hour tr l rest st1 _ _ hl]
    simp
  have hgs := getStream_of_cache env.fetchB env.remoteBody st _ hcache
  have hnp : np ≠ [] := by
    intro hnil
    obtain ⟨x, hx, hxk⟩ := hok
    have hpos : 0 < pre.countP (fun y => y.kind == LineKind.okL) :=
      List.countP_pos_iff.mpr ⟨x, hx, by simp [hxk]⟩
    rw [hnil] at hlen
    simp at hlen
    omega
  obtain ⟨q, np', hq⟩ := List.exists_cons_of_ne_nil hnp
  subst hq
  have hfr : finishRollback .dateCol env.deleteAck ((q :: np').map Prod.fst)
      (nb.map Prod.fst) st1 = (st1, .raised .assertFail) := by
    simp [finishRollback, rollbackPrimary, hack0]
  refine ⟨st1, ?_⟩
  rw [insertHourlyGhDataIntoMongodb, hled]
  simp only [Bool.false_eq_true, if_false, hgs, hdr, hfr]

/-- Witness for the amended C3 at the counterexample's input. -/
theorem claim3_rollback_assert_escapes_witness :
    ∃ st', insertHourlyGhDataIntoMongodb "2015-01-01" 0
        ⟨.success, ⟨[], false⟩, true, fun _ => false⟩
        ⟨[], [], [], [],
          some ⟨[⟨"a", .okL, true, true⟩, ⟨"b", .okL, true, true⟩,
                 ⟨"c", .notAck, true, true⟩], false⟩, 0⟩
      = (st', .raised .assertFail) :=
  claim3_rollback_assert_escapes "2015-01-01" 0
    ⟨.success, ⟨[], false⟩, true, fun _ => false⟩
    ⟨[], [], [], [],
      some ⟨[⟨"a", .okL, true, true⟩, ⟨"b", .okL, true, true⟩,
             ⟨"c", .notAck, true, true⟩], false⟩, 0⟩
    [⟨"a", .okL, true, true⟩, ⟨"b", .okL, true, true⟩] []
    ⟨"c", .notAck, true, true⟩ false
    (by decide) rfl (by decide) (Or.inl rfl) (by decide) rfl

/-- Claim C9: when a fallback-routed line's own fallback path fails (the
blob put raises, or the index insert is unacknowledged so the assert
raises), the exception escapes the routine uncaught: no rollback runs,
every primary record created during the attempt (one per parsed,
acknowledged line of the prefix, holding that line's content, in order)
and every fallback blob created during the attempt (one per
fallback-routed line of the prefix, holding that raw line verbatim, in
order, plus the failing line's own blob when its put succeeded) remains
in the stores. -/
theorem claim9_fallback_crash_no_rollback (date : String) (hour : Nat) (env : Env)
    (st : St) (pre rest : List LineSpec) (l : LineSpec) (tr : Bool)
    (hled : isHourlyGhDataExistsInMongodb date hour st = false)
    (hcache : st.cache = some (GzStream.mk (pre ++ l :: rest) tr))
    (hpre : ∀ x ∈ pre, benignLine x = true)
    (hk : isFallbackKind l.kind = true)
    (hfb : l.fbPutOk = false ∨ l.fbIndexAck = false) :
    ∃ (st' : St) (e : Exc) (newPrim newBlobs extra : List (Nat × String)),
      insertHourlyGhDataIntoMongodb date hour env st = (st', .raised e) ∧
      st'.primary = st.primary ++ newPrim ∧
      newPrim.map Prod.snd
        = (pre.filter (fun x => x.kind == LineKind.okL)).map LineSpec.raw ∧
      st'.blobs = (st.blobs ++ newBlobs) ++ extra ∧
      newBlobs.map Prod.snd
        = (pre.filter (fun x => isFallbackKind x.kind)).map LineSpec.raw ∧
      (l.fbPutOk = false → extra = []) ∧
      (l.fbPutOk = true → extra.map Prod.snd = [l.raw]) ∧
      st'.status = st.status := by
  obtain ⟨st1, np, nb, ni, heq, hp, hbo, hg, hs, hc, hn, hip, hib, hlen, hr1, hr2⟩ :=
    drain_pre_spec date hour tr pre (l :: rest) st [] [] hpre
  have hgs := getStream_of_cache env.fetchB env.remoteBody st _ hcache
  cases hpo : l.fbPutOk with
  | false =>
    have hstep := (drain_fallback_fail_step date hour tr l rest st1
      (np.map Prod.fst) (nb.map Prod.fst) hk).1 hpo
    have hdr : drain date hour tr (pre ++ l :: rest) st [] []
        = .raised .gfsPutErr st1 := by
      rw [heq]
      simpa using hstep
    refine ⟨st1, .gfsPutErr, np, nb, [], ?_, hp, hr1, by simpa using hbo, hr2,
      fun _ => rfl, ?_, hs⟩
    · rw [insertHourlyGhDataIntoMongodb, hled]
      simp only [Bool.false_eq_true, if_false, hgs, hdr]
    · intro h
      simp at h
  | true =>
    have hia : l.fbIndexAck = false := by
      rcases hfb with h | h
      · rw [hpo] at h
        exact absurd h (by simp)
      · exact h
    have hstep := (drain_fallback_fail_step date hour tr l rest st1
      (np.map Prod.fst) (nb.map Prod.fst) hk).2 hpo hia
    have hdr : drain date hour tr (pre ++ l :: rest) st [] []
        = .raised .assertFail
            { st1 with blobs := st1.blobs ++ [(st1.nextId, l.raw)],
                       nextId := st1.nextId + 1 } := by
      rw [heq]
      simpa using hstep
    refine ⟨{ st1 with blobs := st1.blobs ++ [(st1.nextId, l.raw)],
                       nextId := st1.nextId + 1 },
      .assertFail, np, nb, [(st1.nextId, l.raw)], ?_, hp, hr1, ?_, hr2,
      ?_, fun _ => rfl, hs⟩
    · rw [insertHourlyGhDataIntoMongodb, hled]
      simp only [Bool.false_eq_true, if_false, hgs, hdr]
    · simp [hbo]
    · intro h
      simp at h

/-- Witness for C9: a parsed, acknowledged line and a fallback-routed
line precede a line whose fallback index insert is unacknowledged; the
call raises and the prefix's primary record and blob, and the failing
line's own blob, all survive. -/
theorem claim9_fallback_crash_no_rollback_witness :
    ∃ (st' : St) (e : Exc) (newPrim newBlobs extra : List (Nat × String)),
      insertHourlyGhDataIntoMongodb "2015-01-01" 0
        ⟨.success, ⟨[], false⟩, true, fun _ => true⟩
        ⟨[], [], [], [],
          some ⟨[⟨"p", .okL, true, true⟩, ⟨"q", .badJson, true, true⟩,
                 ⟨"z", .tooLarge, true, false⟩], false⟩, 0⟩
        = (st', .raised e) ∧
      st'.primary = [] ++ newPrim ∧
      newPrim.map Prod.snd = ["p"] ∧
      st'.blobs = ([] ++ newBlobs) ++ extra ∧
      newBlobs.map Prod.snd = ["q"] ∧
      (true = false → extra = []) ∧
      (true = true → extra.map Prod.snd = ["z"]) ∧
      st'.status = [] :=
  claim9_fallback_crash_no_rollback "2015-01-01" 0
    ⟨.success, ⟨[], false⟩, true, fun _ => true⟩
    ⟨[], [], [], [],
      some ⟨[⟨"p", .okL, true, true⟩, ⟨"q", .badJson, true, true⟩,
             ⟨"z", .tooLarge, true, false⟩], false⟩, 0⟩
    [⟨"p", .okL, true, true⟩, ⟨"q", .badJson, true, true⟩] []
    ⟨"z", .tooLarge, true, false⟩ false
    (by decide) rfl (by decide) (by decide) (Or.inr rfl)

/-- Witness for C5 at a concrete truncated one-line stream. -/
theorem claim5_truncation_cleanup_witness :
    ∃ st', insertHourlyGhDataIntoMongodb "2015-01-01" 0
        ⟨.success, ⟨[], false⟩, true, fun _ => true⟩
        ⟨[], [], [], [], some ⟨[⟨"a", .okL, true, true⟩], true⟩, 0⟩
        = (st', .failU) ∧
      st'.cache = none ∧
      st'.primary = [] ∧
      st'.blobs = [] ∧
      st'.status = [] ∧
      (true = true →
        ∃ st2, insertHourlyGhDataIntoMongodb "2015-01-01" 0
            ⟨.success, ⟨[], false⟩, true, fun _ => true⟩
            ⟨[], [], [], [], some ⟨[⟨"a", .okL, true, true⟩], false⟩, 0⟩
          = (st2, .passU)) :=
  claim5_truncation_cleanup "2015-01-01" 0
    ⟨.success, ⟨[], false⟩, true, fun _ => true⟩
    ⟨[], [], [], [], some ⟨[⟨"a", .okL, true, true⟩], true⟩, 0⟩
    [⟨"a", .okL, true, true⟩]
    (by decide) rfl (by decide) ⟨by simp, by simp⟩ (fun i => rfl)

/-- Looking up the empty dict yields nothing. -/
theorem dictLookup_nil {α : Type} (k : String) :
    dictLookup ([] : List (String × α)) k = none := rfl

/-- Unfolding lemma for `dictLookup` on a nonempty dict. -/
theorem dictLookup_cons {α : Type} (p : String × α) (rest : List (String × α))
    (k : String) :
    dictLookup (p :: rest) k = if p.1 = k then some p.2 else dictLookup rest k := by
  by_cases h : p.1 = k
  · rw [dictLookup, List.find?_cons_of_pos _ (by simp [h])]
    simp [h]
  · rw [dictLookup, List.find?_cons_of_neg _ (by simp [h])]
    simp [h, dictLookup]

/-- A key absent from a dict looks up to nothing. -/
theorem dictLookup_eq_none {α : Type} (d : List (String × α)) (k : String)
    (h : k ∉ d.map Prod.fst) :
    dictLookup d k = none := by
  induction d with
  | nil => rfl
  | cons p rest ih =>
    simp only [List.map_cons, List.mem_cons] at h
    push_neg at h
    rw [dictLookup_cons, if_neg (fun he => h.1 he.symm)]
    exact ih h.2

/-- After an assignment, the assigned key looks up to the new value. -/
theorem dictLookup_dictInsert_self {α : Type} (d : List (String × α))
    (k : String) (v : α) :
    dictLookup (dictInsert d k v) k = some v := by
  induction d with
  | nil => simp [dictInsert, dictLookup_cons]
  | cons p rest ih =>
    by_cases h : p.1 = k
    · rw [dictInsert, if_pos h, dictLookup_cons]
      simp
    · rw [dictInsert, if_neg h, dictLookup_cons, if_neg h]
      exact ih

/-- An assignment leaves every other key's lookup unchanged. -/
theorem dictLookup_dictInsert_ne {α : Type} (d : List (String × α))
    (k k' : String) (v : α) (h : k' ≠ k) :
    dictLookup (dictInsert d k v) k' = dictLookup d k' := by
  induction d with
  | nil =>
    show dictLookup [(k, v)] k' = dictLookup [] k'
    rw [dictLookup_cons, if_neg (fun he => h he.symm)]
  | cons p rest ih =>
    by_cases hp : p.1 = k
    · have h1 : dictInsert (p :: rest) k v = (k, v) :: rest := by
        rw [dictInsert, if_pos hp]
      rw [h1, dictLookup_cons, dictLookup_cons,
        if_neg (fun he => h he.symm),
        if_neg (fun he => h ((hp.symm.trans he).symm))]
    · have h1 : dictInsert (p :: rest) k v = p :: dictInsert rest k v := by
        rw [dictInsert, if_neg hp]
      rw [h1, dictLookup_cons, dictLookup_cons, ih]

/-- Folding a sequence of assignments with pairwise distinct keys over a
base dict: an assigned key gets its assigned value, every other key
falls back to the base. -/
theorem dictLookup_foldl {α : Type} :
    ∀ (kw : List (String × α)) (t : List (String × α)) (k : String),
      (kw.map Prod.fst).Nodup →
      dictLookup (kw.foldl (fun t p => dictInsert t p.1 p.2) t) k
        = match dictLookup kw k with
          | some v => some v
          | none => dictLookup t k := by
  intro kw
  induction kw with
  | nil => intro t k _; rfl
  | cons p rest ih =>
    intro t k hnd
    simp only [List.map_cons, List.nodup_cons] at hnd
    rw [List.foldl_cons, ih (dictInsert t p.1 p.2) k hnd.2, dictLookup_cons]
    by_cases hk : p.1 = k
    · have hrest : dictLookup rest k = none :=
        dictLookup_eq_none rest k (hk ▸ hnd.1)
      rw [hrest, if_pos hk, ← hk]
      simpa using dictLookup_dictInsert_self t p.1 p.2
    · rw [if_neg hk, dictLookup_dictInsert_ne t p.1 k p.2 (fun he => hk he.symm)]

/-- Assigning a fresh key appends the pair at the end. -/
theorem dictInsert_of_not_mem {α : Type} (d : List (String × α)) (k : String)
    (v : α) (h : k ∉ d.map Prod.fst) :
    dictInsert d k v = d ++ [(k, v)] := by
  induction d with
  | nil => rfl
  | cons p rest ih =>
    simp only [List.map_cons, List.mem_cons] at h
    push_neg at h
    rw [dictInsert, if_neg (fun he => h.1 he.symm), List.cons_append, ih h.2]

/-- Folding assignments of pairwise fresh keys over a base dict appends
the assignments in order. -/
theorem foldl_dictInsert_append {α : Type} :
    ∀ (kw t : List (String × α)),
      (kw.map Prod.fst).Nodup →
      (∀ k ∈ kw.map Prod.fst, k ∉ t.map Prod.fst) →
      kw.foldl (fun t p => dictInsert t p.1 p.2) t = t ++ kw := by
  intro kw
  induction kw with
  | nil => intro t _ _; simp
  | cons p rest ih =>
    intro t hnd hdis
    simp only [List.map_cons, List.nodup_cons] at hnd
    rw [List.foldl_cons,
      dictInsert_of_not_mem t p.1 p.2 (hdis p.1 (by simp)),
      ih (t ++ [p]) hnd.2 ?_]
    · simp
    · intro k hk
      simp only [List.map_append, List.mem_append, List.map_cons]
      push_neg
      refine ⟨hdis k (by simp [hk]), ?_⟩
      intro hmem
      simp only [List.map_nil, List.mem_singleton] at hmem
      exact hnd.1 (hmem ▸ hk)

/-- The `kwargs`-emptiness guard in `load_token` is immaterial: the
routine is a fold of assignments over the (conditionally loaded) file
dict. -/
theorem load_token_eq {α : Type} (fe : Bool) (ft kw : List (String × α)) :
    load_token fe ft kw
      = kw.foldl (fun t p => dictInsert t p.1 p.2)
          (if fe then ft.foldl (fun t p => dictInsert t p.1 p.2) [] else []) := by
  cases kw with
  | nil => simp [load_token]
  | cons p rest => simp [load_token]

/-- Claim C10: `load_token` keeps every key of the file dict (when the
file exists) and every key of `kwargs`, with `kwargs` winning on shared
keys, and with a missing file the result is exactly the `kwargs`
mapping. -/
theorem claim10_load_token {α : Type} (ft kw : List (String × α))
    (hft : (ft.map Prod.fst).Nodup) (hkw : (kw.map Prod.fst).Nodup) :
    (∀ (k : String) (v : α), dictLookup kw k = some v →
      dictLookup (load_token true ft kw) k = some v) ∧
    (∀ k : String, dictLookup kw k = none →
      dictLookup (load_token true ft kw) k = dictLookup ft k) ∧
    load_token false ft kw = kw := by
  have hbase : ft.foldl (fun t p => dictInsert t p.1 p.2) ([] : List (String × α)) = ft := by
    simpa using foldl_dictInsert_append ft [] hft (by simp)
  refine ⟨?_, ?_, ?_⟩
  · intro k v h
    rw [load_token_eq, if_pos rfl, hbase, dictLookup_foldl kw ft k hkw, h]
  · intro k h
    rw [load_token_eq, if_pos rfl, hbase, dictLookup_foldl kw ft k hkw, h]
  · rw [load_token_eq, if_neg (by simp)]
    simpa using foldl_dictInsert_append kw [] hkw (by simp)

/-- Witness for C10 at concrete file and kwargs dicts sharing the key
"url". -/
theorem claim10_load_token_witness :
    dictLookup (load_token true [("url", "u"), ("x", "1")]
      [("user", "a"), ("url", "b")]) "url" = some "b" ∧
    dictLookup (load_token true [("url", "u"), ("x", "1")]
      [("user", "a"), ("url", "b")]) "x" = some "1" ∧
    load_token false [("url", "u"), ("x", "1")] [("user", "a"), ("url", "b")]
      = [("user", "a"), ("url", "b")] :=
  ⟨(claim10_load_token [("url", "u"), ("x", "1")] [("user", "a"), ("url", "b")]
      (by decide) (by decide)).1 "url" "b" (by decide),
   ((claim10_load_token [("url", "u"), ("x", "1")] [("user", "a"), ("url", "b")]
      (by decide) (by decide)).2.1 "x" (by decide)).trans (by decide),
   (claim10_load_token [("url", "u"), ("x", "1")] [("user", "a"), ("url", "b")]
      (by decide) (by decide)).2.2⟩
